import Mathlib

/-!
Shallow embedding of the `actionbuilder_updater` reconciliation pipeline.

Remote HTTP reads are modelled by oracle functions (`String → Option _` /
`Nat → Option _`): `none` stands for a request that raised (after the retry
wrapper gave up) or returned a falsy body, exactly the cases in which the
Python callers in this repository fall back to their "no data" branch.
Python's `None`-vs-value distinction is carried by `Option`, Python string
truthiness by `truthyStr`, and unbounded `while` loops by explicit fuel.
-/

/-- Python truthiness of an optional string: `None` and `""` are falsy. -/
def truthyStr : Option String → Bool
  | none => false
  | some s => !(s.isEmpty)

/-- Python `s.split(":")[-1]`: the component after the last colon (the
whole string when it has no colon, the empty string when it ends in one).
Written as a character-list computation so that it evaluates by
reduction. -/
def lastColonComponent (s : String) : String :=
  ((s.toList.reverse.takeWhile (fun ch => ch ≠ ':')).reverse).asString

/-- A tagging resource as read by this pipeline: the
`action_builder:field` and `action_builder:name` keys (absent key = `none`)
and the `identifiers` list (absent key modelled as `[]`, which has the same
Python truthiness). -/
structure Tagging where
  field : Option String
  name : Option String
  identifiers : List String
deriving Repr, DecidableEq

/-- Tag-id extraction shared by `get_person_current_tags` and
`extract_connection_membership_info`:
`tag_id = tagging["identifiers"][0].split(":")[-1]` when the `identifiers`
list is truthy, else `None`. -/
def tagIdOf (t : Tagging) : Option String :=
  match t.identifiers with
  | [] => none
  | i :: _ => some (lastColonComponent i)

/-- One entry of the dict built by `get_person_current_tags`:
`{"tag_id": tag_id, "tag_name": tag_name or ""}`. -/
structure TagEntry where
  tag_id : Option String
  tag_name : String
deriving Repr, DecidableEq

/-- The dict returned by `get_person_current_tags`: the `"status"` and
`"type"` keys, `none` when the key was never assigned. -/
structure CurrentTags where
  status : Option TagEntry
  type : Option TagEntry
deriving Repr, DecidableEq

/-- Loop body of `get_person_current_tags` (assignment into the dict for a
single tagging). -/
def currentTagsStep (acc : CurrentTags) (t : Tagging) : CurrentTags :=
  let tag_id := tagIdOf t
  let tag_name := (t.name.getD "")
  if t.field = some "Membership Status" then
    { acc with status := some ⟨tag_id, tag_name⟩ }
  else if t.field = some "Membership Type" then
    { acc with type := some ⟨tag_id, tag_name⟩ }
  else acc

/-- `get_person_current_tags`: fold the person's taggings
(`get_all_tags(person_id)`) into the current-tags dict; a later tagging for
the same field overwrites the earlier one. Note `tag_name or ""` turns a
null name into `""`, while a field with no tagging at all stays absent. -/
def get_person_current_tags (get_all_tags : String → List Tagging)
    (person_id : String) : CurrentTags :=
  (get_all_tags person_id).foldl currentTagsStep ⟨none, none⟩

/-- The tuple `(status_value, status_id, type_value, type_id)` built by
`extract_connection_membership_info`. -/
structure ConnMembershipInfo where
  status_value : Option String
  status_id : Option String
  type_value : Option String
  type_id : Option String
deriving Repr, DecidableEq

/-- Loop body of `extract_connection_membership_info`. Unlike the
person-side reader there is no `or ""`: a null name stays `None`. -/
def connInfoStep (acc : ConnMembershipInfo) (t : Tagging) : ConnMembershipInfo :=
  let tag_value := t.name
  let tag_id := tagIdOf t
  if t.field = some "Membership Status" then
    { acc with status_value := tag_value, status_id := tag_id }
  else if t.field = some "Membership Type" then
    { acc with type_value := tag_value, type_id := tag_id }
  else acc

/-- `extract_connection_membership_info`: scan the connection-side taggings;
the last occurrence of each field wins. -/
def extract_connection_membership_info (taggings : List Tagging) :
    ConnMembershipInfo :=
  taggings.foldl connInfoStep ⟨none, none, none, none⟩

/-- A connection record as read by this pipeline: `connection_type`,
truthiness of the `inactive` key, and the two hypermedia links
`_links["osdi:person"].href` and `_links["osdi:taggings"].href`
(absent link = `none`). -/
structure Conn where
  connection_type : Option String
  inactive : Bool
  unit_href : Option String
  taggings_href : Option String
deriving Repr, DecidableEq

/-- A unit resource: its `action_builder:name` key (`none` = absent, in
which case the `.get` default `"Unknown Unit"` applies). -/
structure UnitData where
  name : Option String
deriving Repr, DecidableEq

/-- One page of a hypermedia collection: the `_embedded` item list (absent
key = `[]`) and the `_links.next.href` cursor. -/
structure Page (α : Type) where
  items : List α
  next : Option String
deriving Repr, DecidableEq

/-- The cursor-following `while url:` loop shared by
`fetch_connections_from_person` and `fetch_taggings_from_connection`:
fetch the page (a raised or falsy response breaks the loop), collect its
items, follow `next`. `fuel` bounds the unbounded Python loop. -/
def followPages (get : String → Option (Page α)) : Nat → Option String → List α
  | 0, _ => []
  | _, none => []
  | fuel + 1, some url =>
    if url.isEmpty then []
    else
      match get url with
      | none => []
      | some pg => pg.items ++ followPages get fuel pg.next

/-- A person resource as used by `process_person` and
`fetch_connections_from_person`: the `browser_url` key and the
`_links["action_builder:connections"].href` link. -/
structure PersonData where
  browser_url : Option String
  connections_href : Option String
deriving Repr, DecidableEq

/-- `fetch_connections_from_person`: no connections link means `[]`,
otherwise follow the paginated collection. -/
def fetch_connections_from_person (get : String → Option (Page Conn))
    (fuel : Nat) (person : PersonData) : List Conn :=
  if truthyStr person.connections_href then
    followPages get fuel person.connections_href
  else []

/-- `fetch_unit_from_connection`: walk the connections; a connection of the
distinguished type that is inactive is skipped (`continue`), one without a
truthy unit link falls through to the next iteration; the first remaining
match has its unit fetched and the result (or `None` on a request error) is
returned immediately. -/
def fetch_unit_from_connection (get : String → Option UnitData) :
    List Conn → Option UnitData
  | [] => none
  | c :: rest =>
    if c.connection_type = some "People + Units" then
      if c.inactive then fetch_unit_from_connection get rest
      else if truthyStr c.unit_href then get (c.unit_href.getD "")
      else fetch_unit_from_connection get rest
    else fetch_unit_from_connection get rest

/-- `fetch_taggings_from_connection`: walk the connections; skip those whose
type differs from the distinguished type or whose taggings link is not
truthy (`continue`), and for the first remaining match return its full
paginated taggings list. No match yields `None` (not `[]`). This walk does
NOT consult the `inactive` flag. -/
def fetch_taggings_from_connection (get : String → Option (Page Tagging))
    (fuel : Nat) : List Conn → Option (List Tagging)
  | [] => none
  | c :: rest =>
    if c.connection_type ≠ some "People + Units" then
      fetch_taggings_from_connection get fuel rest
    else if ¬ truthyStr c.taggings_href then
      fetch_taggings_from_connection get fuel rest
    else some (followPages get fuel c.taggings_href)

/-- The correction-set record built by `process_person`. -/
structure PersonUnitInfo where
  uuid : String
  unit_name : String
  membership_status_tag_id : Option String
  membership_type_tag_id : Option String
  membership_status : String
  membership_type : String
  inactive : Bool
deriving Repr, DecidableEq

/-- The input record streamed from the people search: its `identifiers`
key (`none` = absent, in which case `person.get("identifiers", [None])[0]`
yields `None`). -/
structure PersonStub where
  identifiers : Option (List String)
deriving Repr, DecidableEq

/-- The remote API as seen by `process_person`: each field models one
`_safe_get`-backed operation at its URL shape (`none` = the call raised
after retries, or returned a falsy body). `get_all_tags` models the
already-collected result of the person's own paginated taggings listing. -/
structure Env where
  get_person : String → Option PersonData
  getConnPage : String → Option (Page Conn)
  getUnit : String → Option UnitData
  getTagPage : String → Option (Page Tagging)
  get_all_tags : String → List Tagging

/-- `process_person`: resolve one changed record. Every failure path of the
Python function returns `None`: missing or falsy identifier, failed person
fetch, empty connections list, and the `TypeError` raised (and caught by the
surrounding `except`) when `fetch_taggings_from_connection` returns `None`
and the extraction loop iterates over it. The missing-ids logging branch is
observational and does not appear in the data flow. -/
def process_person (env : Env) (fuel : Nat) (person : PersonStub) :
    Option PersonUnitInfo :=
  match person.identifiers with
  | some [] => none
  | none => none
  | some (pid :: _) =>
    if pid.isEmpty then none
    else
      let person_uuid := lastColonComponent pid
      match env.get_person person_uuid with
      | none => none
      | some person_data =>
        match fetch_connections_from_person env.getConnPage fuel person_data with
        | [] => none
        | c :: cs =>
          let connections := c :: cs
          let unit_data := fetch_unit_from_connection env.getUnit connections
          let unit_name :=
            match unit_data with
            | some u => u.name.getD "Unknown Unit"
            | none => "Unknown Unit"
          match fetch_taggings_from_connection env.getTagPage fuel connections with
          | none => none
          | some taggings =>
            let ci := extract_connection_membership_info taggings
            let current_tags := get_person_current_tags env.get_all_tags person_uuid
            let current_status := current_tags.status.map TagEntry.tag_name
            let current_type := current_tags.type.map TagEntry.tag_name
            if ci.status_value ≠ current_status ∨ ci.type_value ≠ current_type then
              some
                { uuid := person_uuid
                  unit_name := unit_name
                  membership_status_tag_id := current_tags.status.bind TagEntry.tag_id
                  membership_type_tag_id := current_tags.type.bind TagEntry.tag_id
                  membership_status := ci.status_value.getD ""
                  membership_type := ci.type_value.getD ""
                  inactive := decide (ci.status_value ≠ some "Active") }
            else none

/-- A Python value as it appears in the `asdict` rows of `dict_to_csv` and
as a wrapped operation's return value in `retry_request`. -/
inductive PyVal
  | pyStr (s : String)
  | pyNone
  | pyBool (b : Bool)
deriving Repr, DecidableEq

/-- Python truthiness of a `PyVal`. -/
def pyTruthy : PyVal → Bool
  | .pyStr s => !(s.isEmpty)
  | .pyNone => false
  | .pyBool b => b

/-- How the `csv` writer stringifies a cell value: `None` becomes the empty
field, booleans their Python repr, strings pass through. -/
def pyCellStr : PyVal → String
  | .pyStr s => s
  | .pyNone => ""
  | .pyBool b => if b then "True" else "False"

def optVal : Option String → PyVal
  | none => .pyNone
  | some s => .pyStr s

/-- `dataclasses.asdict` on a `PersonUnitInfo`: an association list in field
declaration order. -/
def asdict (p : PersonUnitInfo) : List (String × PyVal) :=
  [("uuid", .pyStr p.uuid),
   ("unit_name", .pyStr p.unit_name),
   ("membership_status_tag_id", optVal p.membership_status_tag_id),
   ("membership_type_tag_id", optVal p.membership_type_tag_id),
   ("membership_status", .pyStr p.membership_status),
   ("membership_type", .pyStr p.membership_type),
   ("inactive", .pyBool p.inactive)]

/-- `row.get(key, default)` on an association-list row. -/
def rowGet (row : List (String × PyVal)) (key : String) (dflt : PyVal) : PyVal :=
  match row.find? (fun kv => kv.1 = key) with
  | some kv => kv.2
  | none => dflt

/-- The `exclude_fields` set of `dict_to_csv`. -/
def exclude_fields : List String :=
  ["membership_status_tag_id", "membership_type_tag_id",
   "membership_status", "inactive"]

/-- QUOTE_MINIMAL escaping of one CSV field (delimiter `,`, quote `"`,
line terminator `\r\n`): quote when the field holds a special character,
doubling embedded quotes. -/
def csvEscape (s : String) : String :=
  if s.any (fun ch => ch = ',' ∨ ch = '"' ∨ ch = '\r' ∨ ch = '\n') then
    "\"" ++ String.join (s.toList.map
      (fun ch => if ch = '"' then "\"\"" else String.singleton ch)) ++ "\""
  else s

/-- One CSV output line (default dialect: comma-joined, `\r\n` ending). -/
def csvRow (cells : List String) : String :=
  String.intercalate "," (cells.map csvEscape) ++ "\r\n"

/-- `dict_to_csv`: render the correction map. The dict is modelled as its
insertion-ordered entry list. Mirrors the source: empty dict short-circuit,
`asdict` rows, inactive filter, excluded-field filter, row count, emptiness
re-check, then a `csv.DictWriter` whose field names come from the first
filtered row's keys. -/
def dict_to_csv (data : List (String × PersonUnitInfo)) : String × Nat :=
  if data.isEmpty then ("", 0)
  else
    let rows := data.map (fun kv => asdict kv.2)
    let active_rows := rows.filter
      (fun row => !(pyTruthy (rowGet row "inactive" (.pyBool false))))
    let filtered_rows := active_rows.map
      (fun row => row.filter (fun kv => !(exclude_fields.contains kv.1)))
    let cnt_rows := filtered_rows.length
    if filtered_rows.isEmpty then ("", 0)
    else
      let fieldnames := (filtered_rows.headD []).map Prod.fst
      let header := csvRow fieldnames
      let body := String.join (filtered_rows.map
        (fun row => csvRow (fieldnames.map (fun f => pyCellStr (rowGet row f .pyNone)))))
      (header ++ body, cnt_rows)

/-- The two report-notification variants `main` can emit. -/
inductive EmailKind
  | csvReport (subject : String) (csv_content : String)
  | nothingToReport
deriving Repr, DecidableEq

/-- The notification behaviour of `main`, given the scheduling-guard inputs
and the correction map produced by `build_people_unit_map` (abstracted as a
parameter; the intervening `delete_outdated_tags` call catches all its
per-task failures and sends nothing). Returns the list of `send_email`
calls the run performs, in order. -/
def main_emails (run_today_first : Bool) (scheduled : Bool)
    (people_map : List (String × PersonUnitInfo)) : List EmailKind :=
  if !run_today_first && scheduled then []
  else if people_map.isEmpty then []
  else
    let rendered := dict_to_csv people_map
    if !(rendered.1.isEmpty) then
      [EmailKind.csvReport
        ("WBNG ActionBuilder API Sync ran, " ++ toString rendered.2 ++ " rows attached")
        rendered.1]
    else [EmailKind.nothingToReport]

/-- One page of a page-number-addressed collection (`_embedded` items plus
the body's `total_pages` key). -/
structure NumPage (α : Type) where
  items : List α
  total_pages : Option Int
deriving Repr, DecidableEq

/-- The shared page-number loop of `search_people_modified_by` and
`get_tags_paginated`: fetch page `page` (`none` = the request raised, which
breaks the loop); an empty item list breaks before yielding; otherwise
yield the items and stop unless `total_pages` is present and still ahead of
the current page. `fuel` bounds the unbounded Python loop. -/
def paginateAux (fetch : Nat → Option (NumPage α)) : Nat → Nat → List α
  | 0, _ => []
  | fuel + 1, page =>
    match fetch page with
    | none => []
    | some data =>
      if data.items.isEmpty then []
      else
        data.items ++
          match data.total_pages with
          | none => []
          | some tp => if (page : Int) ≥ tp then [] else paginateAux fetch fuel (page + 1)

/-- `search_people_modified_by`: stream people pages starting at page 1;
the filter parameters are baked into the page oracle. -/
def search_people_modified_by (fetchPage : Nat → Option (NumPage PersonStub))
    (fuel : Nat) : List PersonStub :=
  paginateAux fetchPage fuel 1

/-- `get_tags_paginated`: stream a person's tagging pages starting at
page 1. -/
def get_tags_paginated (fetchPage : Nat → Option (NumPage Tagging))
    (fuel : Nat) : List Tagging :=
  paginateAux fetchPage fuel 1

/-- The exception taxonomy visible to `retry_request`:
`requestException code` covers `requests.RequestException` (including the
`HTTPError` raised by `raise_for_status`, carrying its status code),
`valueError` covers `ValueError`, `otherError` anything else. -/
inductive PyExc
  | requestException (code : Nat)
  | valueError
  | otherError
deriving Repr, DecidableEq

/-- The falsy test of `retry_request`:
`result is False or result is None`. -/
def pyFalsyRF : PyVal → Bool
  | .pyBool false => true
  | .pyNone => true
  | _ => false

/-- Whether the `except` clause of `retry_request` catches `e`:
the configured `exceptions` tuple, plus `ValueError` when
`retry_if_false` is set. -/
def retryCatches (isConf : PyExc → Bool) (rif : Bool) (e : PyExc) : Bool :=
  isConf e || (rif && decide (e = PyExc.valueError))

/-- One run of the `for attempt in range(1, max_attempts + 1)` loop of
`retry_request`, from attempt number `attempt` with `remaining` loop
iterations left. The wrapped operation is modelled per attempt number
(`op i` = the value returned, or the exception raised, by the `i`-th call).
Returns `(outcome, sleep durations in order, number of calls made)`; a loop
that runs out of iterations returns Python `None`. -/
def retryAux (op : Nat → Except PyExc PyVal) (isConf : PyExc → Bool)
    (rif : Bool) (backoff maxA : Nat) :
    Nat → Nat → Except PyExc PyVal × List Nat × Nat
  | _, 0 => (Except.ok PyVal.pyNone, [], 0)
  | attempt, remaining + 1 =>
    match op attempt with
    | Except.ok result =>
      if rif && pyFalsyRF result then
        if attempt = maxA then (Except.ok result, [], 1)
        else
          let rest := retryAux op isConf rif backoff maxA (attempt + 1) remaining
          (rest.1, backoff * 2 ^ (attempt - 1) :: rest.2.1, rest.2.2 + 1)
      else (Except.ok result, [], 1)
    | Except.error e =>
      if retryCatches isConf rif e then
        if attempt = maxA then (Except.error e, [], 1)
        else
          let rest := retryAux op isConf rif backoff maxA (attempt + 1) remaining
          (rest.1, backoff * 2 ^ (attempt - 1) :: rest.2.1, rest.2.2 + 1)
      else (Except.error e, [], 1)

/-- `retry_request` applied to a wrapped operation: run the attempt loop
from attempt 1 with `max_attempts` iterations available. -/
def retry_request (maxA backoff : Nat) (isConf : PyExc → Bool) (rif : Bool)
    (op : Nat → Except PyExc PyVal) : Except PyExc PyVal × List Nat × Nat :=
  retryAux op isConf rif backoff maxA 1 maxA

/-- The default `exceptions=(requests.RequestException,)` tuple. -/
def defaultConf : PyExc → Bool
  | .requestException _ => true
  | _ => false

/-- One undecorated call of `delete_tagging`, as a function of the HTTP
status the remote answers with: 200/204 return `True`, 404 returns `False`,
`raise_for_status` raises `HTTPError` exactly when the status is a 4xx or
5xx code (400–599), and any other status (1xx–3xx other than 200/204, or
≥ 600) lets the function fall off its end returning Python `None`. -/
def delete_tagging_once (status : Nat) : Except PyExc PyVal :=
  if status = 200 ∨ status = 204 then Except.ok (PyVal.pyBool true)
  else if status = 404 then Except.ok (PyVal.pyBool false)
  else if 400 ≤ status ∧ status < 600 then Except.error (PyExc.requestException status)
  else Except.ok PyVal.pyNone

/-- The decorated `delete_tagging` (`@retry_request()` with its defaults:
3 attempts, backoff 1, retryable = `requests.RequestException`, no
falsy-retry), modelled over the per-attempt response statuses. -/
def delete_tagging (statuses : Nat → Nat) : Except PyExc PyVal × List Nat × Nat :=
  retry_request 3 1 defaultConf false (fun i => delete_tagging_once (statuses i))

/-- `delete_tag_for_person`: call the decorated `delete_tagging`; any
propagated exception is caught and turned into `False`, every
non-exceptional outcome (whatever value it carried) into `True`. -/
def delete_tag_for_person (statuses : Nat → Nat) : Bool :=
  match (delete_tagging statuses).1 with
  | Except.ok _ => true
  | Except.error _ => false

/-- Whether attempt `i` of a wrapped operation is a retryable failure in
the sense of `retry_request`: either it raises an exception the wrapper's
`except` clause catches, or (in falsy-retry mode) it returns a falsy
result. -/
def retryFailsAt (op : Nat → Except PyExc PyVal) (isConf : PyExc → Bool)
    (rif : Bool) (i : Nat) : Bool :=
  match op i with
  | Except.error e => retryCatches isConf rif e
  | Except.ok v => rif && pyFalsyRF v

/-- The item list a page oracle reports for a page (`[]` for a failed
fetch); used to state what "the concatenation of the items of pages
`a..b`" means. -/
def pageItems : Option (NumPage α) → List α
  | some pg => pg.items
  | none => []

/-- First connection of the counterexample list for the connection-selection
claim: the distinguished type, but inactive; carries both links. -/
def cexConnA : Conn := ⟨some "People + Units", true, some "uA", some "tA"⟩

/-- Second connection of the counterexample list: the distinguished type,
active, carries both links. -/
def cexConnB : Conn := ⟨some "People + Units", false, some "uB", some "tB"⟩

/-- Unit oracle distinguishing the two connections' unit links. -/
def cexGetUnit : String → Option UnitData := fun url =>
  if url = "uA" then some ⟨some "Unit A"⟩
  else if url = "uB" then some ⟨some "Unit B"⟩
  else none

def cexTagA : Tagging := ⟨some "Membership Status", some "Active", ["tag:s:A"]⟩

def cexTagB : Tagging := ⟨some "Membership Status", some "Lapsed", ["tag:s:B"]⟩

/-- Taggings-page oracle distinguishing the two connections' taggings
links. -/
def cexGetTagPage : String → Option (Page Tagging) := fun url =>
  if url = "tA" then some ⟨[cexTagA], none⟩
  else if url = "tB" then some ⟨[cexTagB], none⟩
  else none

/-- Page oracle for the pagination counterexample: page 1 is non-empty but
claims `total_pages = 1`, page 2 is non-empty, page 3 is the first empty
page. -/
def cexPages : Nat → Option (NumPage PersonStub) := fun n =>
  if n = 1 then some ⟨[⟨some ["ab:person:p1"]⟩], some 1⟩
  else if n = 2 then some ⟨[⟨some ["ab:person:p2"]⟩], some 5⟩
  else if n = 3 then some ⟨[], some 5⟩
  else none

/-- A concrete active correction entry used by witnesses. -/
def wInfoActive : PersonUnitInfo :=
  ⟨"u1", "Unit One", some "s1", some "t1", "Active", "Member", false⟩

/-- Concrete person resource for the resolution witnesses. -/
def wPersonData : PersonData := ⟨some "http://example/p", some "connsUrl"⟩

/-- Concrete person stub for the resolution witnesses. -/
def wPerson : PersonStub := ⟨some ["actionbuilder:person:123"]⟩

/-- Concrete matched connection for the resolution witnesses. -/
def wConn : Conn := ⟨some "People + Units", false, some "unitUrl", some "tagsUrl"⟩

/-- Environment for the discrepancy witness: unit side says
(Active, Member), person side says (Lapsed, Member). -/
def wEnvC4 : Env :=
  { get_person := fun pid => if pid = "123" then some wPersonData else none
    getConnPage := fun url => if url = "connsUrl" then some ⟨[wConn], none⟩ else none
    getUnit := fun url => if url = "unitUrl" then some ⟨some "Unit X"⟩ else none
    getTagPage := fun url =>
      if url = "tagsUrl" then
        some ⟨[⟨some "Membership Status", some "Active", ["tag:s:uS"]⟩,
               ⟨some "Membership Type", some "Member", ["tag:t:uT"]⟩], none⟩
      else none
    get_all_tags := fun pid =>
      if pid = "123" then
        [⟨some "Membership Status", some "Lapsed", ["tag:s:pS"]⟩,
         ⟨some "Membership Type", some "Member", ["tag:t:pT"]⟩]
      else [] }

/-- Environment for the missing-ids witness: the unit side carries a
Non-Member type tagging without identifiers and no status tagging at all,
the person side has no tags. -/
def wEnvC5 : Env :=
  { get_person := fun pid => if pid = "123" then some wPersonData else none
    getConnPage := fun url => if url = "connsUrl" then some ⟨[wConn], none⟩ else none
    getUnit := fun url => if url = "unitUrl" then some ⟨some "Unit X"⟩ else none
    getTagPage := fun url =>
      if url = "tagsUrl" then some ⟨[⟨some "Membership Type", some "Non-Member", []⟩], none⟩
      else none
    get_all_tags := fun _ => [] }

/-- Environment for the nameless-tag witness: the person side holds a
Membership Status tagging whose name is null, the unit side has no
Membership Status tagging. -/
def wEnvC10 : Env :=
  { get_person := fun pid => if pid = "123" then some wPersonData else none
    getConnPage := fun url => if url = "connsUrl" then some ⟨[wConn], none⟩ else none
    getUnit := fun url => if url = "unitUrl" then some ⟨some "Unit X"⟩ else none
    getTagPage := fun url =>
      if url = "tagsUrl" then some ⟨[⟨some "Membership Type", some "Member", ["tag:t:uT"]⟩], none⟩
      else none
    get_all_tags := fun pid =>
      if pid = "123" then
        [⟨some "Membership Type", some "Member", ["tag:t:pT"]⟩,
         ⟨some "Membership Status", none, ["tag:s:pS"]⟩]
      else [] }

/-- The unit-side taggings served by `wEnvC4`. -/
def wUnitTagsC4 : List Tagging :=
  [⟨some "Membership Status", some "Active", ["tag:s:uS"]⟩,
   ⟨some "Membership Type", some "Member", ["tag:t:uT"]⟩]

/-- The unit-side taggings served by `wEnvC5`: a Non-Member type tagging
without identifiers and no status tagging. -/
def wUnitTagsC5 : List Tagging := [⟨some "Membership Type", some "Non-Member", []⟩]

/-- The unit-side taggings served by `wEnvC10`: no Membership Status
tagging at all. -/
def wUnitTagsC10 : List Tagging := [⟨some "Membership Type", some "Member", ["tag:t:uT"]⟩]

/-- Page oracle for the pagination witness: pages 1 and 2 non-empty with
`total_pages = 3`, page 3 empty. -/
def wPagesC7 : Nat → Option (NumPage PersonStub) := fun n =>
  if n = 1 then some ⟨[⟨some ["a:1"]⟩], some 3⟩
  else if n = 2 then some ⟨[⟨some ["a:2"]⟩], some 3⟩
  else if n = 3 then some ⟨[], some 3⟩
  else none

/-- Tagging-page oracle for the pagination witness: two non-empty pages
with `total_pages = 2`. -/
def wTagPagesC7 : Nat → Option (NumPage Tagging) := fun n =>
  if n = 1 then some ⟨[cexTagA], some 2⟩
  else if n = 2 then some ⟨[cexTagB], some 2⟩
  else none

lemma rowGet_asdict_inactive (p : PersonUnitInfo) (d : PyVal) :
    rowGet (asdict p) "inactive" d = PyVal.pyBool p.inactive := rfl

lemma filter_exclude_asdict (p : PersonUnitInfo) :
    (asdict p).filter (fun kv => !(exclude_fields.contains kv.1)) =
      [("uuid", PyVal.pyStr p.uuid), ("unit_name", PyVal.pyStr p.unit_name),
       ("membership_type", PyVal.pyStr p.membership_type)] := rfl

lemma cells_filtered_asdict (p : PersonUnitInfo) :
    ["uuid", "unit_name", "membership_type"].map (fun f =>
      pyCellStr (rowGet ((asdict p).filter (fun kv => !(exclude_fields.contains kv.1)))
        f PyVal.pyNone)) =
      [p.uuid, p.unit_name, p.membership_type] := rfl

/-- C6: `dict_to_csv` renders exactly one row per entry whose inactive flag
is `false`, in map order, with exactly the columns `uuid`, `unit_name`,
`membership_type` in declaration order, and returns the rendered row count;
an empty map, or a map all of whose entries are inactive, yields the empty
string with row count 0. -/
theorem C6_dict_to_csv_active_rows_only (data : List (String × PersonUnitInfo)) :
    dict_to_csv data =
      (if ((data.map Prod.snd).filter (fun p => !p.inactive)).isEmpty then ""
       else
         csvRow ["uuid", "unit_name", "membership_type"] ++
           String.join (((data.map Prod.snd).filter (fun p => !p.inactive)).map
             (fun p => csvRow [p.uuid, p.unit_name, p.membership_type])),
       ((data.map Prod.snd).filter (fun p => !p.inactive)).length) := by
  unfold dict_to_csv
  cases data with
  | nil => rfl
  | cons a t =>
    simp only [List.isEmpty_cons, Bool.false_eq_true, if_false, List.map_map]
    have hactive :
        ((a :: t).map (fun kv => asdict kv.2)).filter
            (fun row => !(pyTruthy (rowGet row "inactive" (PyVal.pyBool false)))) =
          (((a :: t).map Prod.snd).filter (fun p => !p.inactive)).map asdict := by
      have hmap : (a :: t).map (fun kv => asdict kv.2) =
          ((a :: t).map Prod.snd).map asdict := by
        simp [List.map_map, Function.comp]
      rw [hmap, List.filter_map]
      congr 1
    rw [hactive]
    cases hA : (List.map Prod.snd (a :: t)).filter (fun p => !p.inactive) with
    | nil => simp
    | cons p ps =>
      simp only [List.map_cons, List.map_map, List.headD_cons, Function.comp,
        filter_exclude_asdict, List.isEmpty_cons, Bool.false_eq_true, if_false,
        List.map_nil, List.length_cons, List.length_map]
      rfl

/-- C1 (corrected): at the concrete input of a non-skipped run whose
accumulated correction map is empty, `main` sends no report notification at
all — not the one notification the claim requires. -/
theorem C1_cex_empty_map_sends_nothing :
    main_emails true true [] = [] ∧ ¬ (main_emails true true []).length = 1 := by
  constructor <;> decide

/-- C1 (amended): a run of `main` that is not skipped by the scheduling
guard sends exactly one report notification when the accumulated correction
map is non-empty (the CSV variant or the nothing-to-report variant,
regardless of how many per-record operations failed to contribute entries),
and sends none at all when the correction map is empty. -/
theorem C1_one_email_iff_map_nonempty (r s : Bool)
    (m : List (String × PersonUnitInfo))
    (hguard : (!r && s) = false) (hm : m ≠ []) :
    (main_emails r s m).length = 1 ∧ main_emails r s [] = [] := by
  constructor
  · cases m with
    | nil => exact absurd rfl hm
    | cons a t =>
      simp only [main_emails, hguard, Bool.false_eq_true, if_false,
        List.isEmpty_cons]
      split <;> rfl
  · simp [main_emails, hguard]

theorem C1_one_email_iff_map_nonempty_witness :
    ((!true && true) = false ∧ [("u1", wInfoActive)] ≠ []) ∧
      (main_emails true true [("u1", wInfoActive)]).length = 1 ∧
      main_emails true true [] = [] :=
  ⟨⟨by decide, by decide⟩,
    C1_one_email_iff_map_nonempty true true [("u1", wInfoActive)]
      (by decide) (by decide)⟩

lemma fetch_unit_from_connection_eq_find (get : String → Option UnitData)
    (conns : List Conn) :
    fetch_unit_from_connection get conns =
      (conns.find? (fun c => decide (c.connection_type = some "People + Units")
          && !c.inactive && truthyStr c.unit_href)).bind
        (fun c => get (c.unit_href.getD "")) := by
  induction conns with
  | nil => rfl
  | cons c rest ih =>
    by_cases hty : c.connection_type = some "People + Units"
    · by_cases hin : c.inactive
      · simp [fetch_unit_from_connection, hty, hin, List.find?, ih]
      · by_cases hu : truthyStr c.unit_href
        · simp [fetch_unit_from_connection, hty, hin, hu, List.find?]
        · simp [fetch_unit_from_connection, hty, hin, hu, List.find?, ih]
    · simp [fetch_unit_from_connection, hty, List.find?, ih]

lemma fetch_taggings_from_connection_eq_find (get : String → Option (Page Tagging))
    (fuel : Nat) (conns : List Conn) :
    fetch_taggings_from_connection get fuel conns =
      (conns.find? (fun c => decide (c.connection_type = some "People + Units")
          && truthyStr c.taggings_href)).map
        (fun c => followPages get fuel c.taggings_href) := by
  induction conns with
  | nil => rfl
  | cons c rest ih =>
    by_cases hty : c.connection_type = some "People + Units"
    · by_cases ht : truthyStr c.taggings_href
      · simp [fetch_taggings_from_connection, hty, ht, List.find?]
      · simp [fetch_taggings_from_connection, hty, ht, List.find?, ih]
    · simp [fetch_taggings_from_connection, hty, List.find?, ih]

/-- C2 (corrected): the two resolution fetchers do not share one selection
rule. On the concrete list `[cexConnA, cexConnB]` — whose first connection
of type "People + Units" is `cexConnA` (inactive, with both links) — the
Unit is fetched from `cexConnB`'s link (yielding "Unit B", not `cexConnA`'s
"Unit A"), while the connection-side Taggings are fetched from `cexConnA`'s
link. -/
theorem C2_cex_unit_and_taggings_from_different_connections :
    List.find? (fun c => decide (c.connection_type = some "People + Units"))
        [cexConnA, cexConnB] = some cexConnA ∧
    cexConnA.unit_href = some "uA" ∧
    cexGetUnit "uA" = some ⟨some "Unit A"⟩ ∧
    fetch_unit_from_connection cexGetUnit [cexConnA, cexConnB] =
      some ⟨some "Unit B"⟩ ∧
    fetch_unit_from_connection cexGetUnit [cexConnA, cexConnB] ≠
      cexGetUnit "uA" ∧
    fetch_taggings_from_connection cexGetTagPage 2 [cexConnA, cexConnB] =
      some [cexTagA] := by
  refine ⟨by decide, by decide, by decide, by decide, by decide, by decide⟩

/-- C2 (amended): the Unit of resolution step 4 is fetched from the first
connection whose `connection_type` is "People + Units" that is additionally
not inactive and carries a truthy unit link, while the connection-side
Taggings of step 5 are fetched from the first connection of that type that
carries a truthy taggings link, inactive or not — so the two steps need not
use the same connection. -/
theorem C2_selection_rules_of_the_two_fetchers :
    (∀ (get : String → Option UnitData) (conns : List Conn),
      fetch_unit_from_connection get conns =
        (conns.find? (fun c => decide (c.connection_type = some "People + Units")
            && !c.inactive && truthyStr c.unit_href)).bind
          (fun c => get (c.unit_href.getD ""))) ∧
    (∀ (get : String → Option (Page Tagging)) (fuel : Nat) (conns : List Conn),
      fetch_taggings_from_connection get fuel conns =
        (conns.find? (fun c => decide (c.connection_type = some "People + Units")
            && truthyStr c.taggings_href)).map
          (fun c => followPages get fuel c.taggings_href)) :=
  ⟨fetch_unit_from_connection_eq_find, fetch_taggings_from_connection_eq_find⟩

lemma process_person_resolved (env : Env) (fuel : Nat) (person : PersonStub)
    (pid : String) (ids : List String) (pd : PersonData) (c : Conn) (cs : List Conn)
    (tgs : List Tagging)
    (hid : person.identifiers = some (pid :: ids))
    (hpid : pid.isEmpty = false)
    (hpd : env.get_person (lastColonComponent pid) = some pd)
    (hconn : fetch_connections_from_person env.getConnPage fuel pd = c :: cs)
    (htgs : fetch_taggings_from_connection env.getTagPage fuel (c :: cs) = some tgs) :
    process_person env fuel person =
      (if (extract_connection_membership_info tgs).status_value ≠
            (get_person_current_tags env.get_all_tags
              (lastColonComponent pid)).status.map TagEntry.tag_name ∨
          (extract_connection_membership_info tgs).type_value ≠
            (get_person_current_tags env.get_all_tags
              (lastColonComponent pid)).type.map TagEntry.tag_name then
        some
          { uuid := lastColonComponent pid
            unit_name :=
              match fetch_unit_from_connection env.getUnit (c :: cs) with
              | some u => u.name.getD "Unknown Unit"
              | none => "Unknown Unit"
            membership_status_tag_id :=
              (get_person_current_tags env.get_all_tags
                (lastColonComponent pid)).status.bind TagEntry.tag_id
            membership_type_tag_id :=
              (get_person_current_tags env.get_all_tags
                (lastColonComponent pid)).type.bind TagEntry.tag_id
            membership_status :=
              (extract_connection_membership_info tgs).status_value.getD ""
            membership_type :=
              (extract_connection_membership_info tgs).type_value.getD ""
            inactive :=
              decide ((extract_connection_membership_info tgs).status_value ≠
                some "Active") }
      else none) := by
  simp only [process_person, hid, hpd, hconn, htgs, hpid, Bool.false_eq_true,
    if_false]

/-- C4: for a record whose resolution reaches the comparison step, a
PersonUnitInfo is constructed if and only if the unit-side pair
`(status_value, type_value)` differs from the person-side pair
`(current_status, current_type)`; when constructed it carries the record's
own tag ids and its inactive flag is `status_value ≠ "Active"`. -/
theorem C4_info_iff_pairs_differ (env : Env) (fuel : Nat) (person : PersonStub)
    (pid : String) (ids : List String) (pd : PersonData) (c : Conn) (cs : List Conn)
    (tgs : List Tagging)
    (hid : person.identifiers = some (pid :: ids))
    (hpid : pid.isEmpty = false)
    (hpd : env.get_person (lastColonComponent pid) = some pd)
    (hconn : fetch_connections_from_person env.getConnPage fuel pd = c :: cs)
    (htgs : fetch_taggings_from_connection env.getTagPage fuel (c :: cs) = some tgs) :
    ((process_person env fuel person).isSome ↔
      ((extract_connection_membership_info tgs).status_value ≠
          (get_person_current_tags env.get_all_tags
            (lastColonComponent pid)).status.map TagEntry.tag_name ∨
        (extract_connection_membership_info tgs).type_value ≠
          (get_person_current_tags env.get_all_tags
            (lastColonComponent pid)).type.map TagEntry.tag_name)) ∧
    (∀ info, process_person env fuel person = some info →
      info.membership_status_tag_id =
        (get_person_current_tags env.get_all_tags
          (lastColonComponent pid)).status.bind TagEntry.tag_id ∧
      info.membership_type_tag_id =
        (get_person_current_tags env.get_all_tags
          (lastColonComponent pid)).type.bind TagEntry.tag_id ∧
      info.inactive =
        decide ((extract_connection_membership_info tgs).status_value ≠
          some "Active")) := by
  have h := process_person_resolved env fuel person pid ids pd c cs tgs
    hid hpid hpd hconn htgs
  rw [h]
  constructor
  · split
    · next hcond => simpa using hcond
    · next hcond => simpa using hcond
  · intro info hinfo
    split at hinfo
    · cases hinfo
      exact ⟨rfl, rfl, rfl⟩
    · cases hinfo

theorem C4_info_iff_pairs_differ_witness :
    fetch_taggings_from_connection wEnvC4.getTagPage 1 [wConn] = some wUnitTagsC4 ∧
    (process_person wEnvC4 1 wPerson).isSome := by
  refine ⟨by decide, ?_⟩
  have h := C4_info_iff_pairs_differ wEnvC4 1 wPerson "actionbuilder:person:123"
    [] wPersonData wConn [] wUnitTagsC4 (by decide) (by decide) (by decide)
    (by decide) (by decide)
  exact h.1.mpr (by decide)

/-- C5: for a record whose unit-side membership tag ids are missing —
whether in the expected Non-Member shape or any other combination — the
resolution outcome is still exactly the normal discrepancy rule's outcome:
the logging branch neither suppresses the record nor returns early. -/
theorem C5_missing_ids_do_not_suppress (env : Env) (fuel : Nat)
    (person : PersonStub) (pid : String) (ids : List String) (pd : PersonData)
    (c : Conn) (cs : List Conn) (tgs : List Tagging)
    (hid : person.identifiers = some (pid :: ids))
    (hpid : pid.isEmpty = false)
    (hpd : env.get_person (lastColonComponent pid) = some pd)
    (hconn : fetch_connections_from_person env.getConnPage fuel pd = c :: cs)
    (htgs : fetch_taggings_from_connection env.getTagPage fuel (c :: cs) = some tgs)
    (_hmiss : ((extract_connection_membership_info tgs).type_value =
          some "Non-Member" ∧
        (extract_connection_membership_info tgs).status_id = none) ∨
      ¬(truthyStr (extract_connection_membership_info tgs).status_id = true ∧
        truthyStr (extract_connection_membership_info tgs).type_id = true)) :
    process_person env fuel person =
      (if (extract_connection_membership_info tgs).status_value ≠
            (get_person_current_tags env.get_all_tags
              (lastColonComponent pid)).status.map TagEntry.tag_name ∨
          (extract_connection_membership_info tgs).type_value ≠
            (get_person_current_tags env.get_all_tags
              (lastColonComponent pid)).type.map TagEntry.tag_name then
        some
          { uuid := lastColonComponent pid
            unit_name :=
              match fetch_unit_from_connection env.getUnit (c :: cs) with
              | some u => u.name.getD "Unknown Unit"
              | none => "Unknown Unit"
            membership_status_tag_id :=
              (get_person_current_tags env.get_all_tags
                (lastColonComponent pid)).status.bind TagEntry.tag_id
            membership_type_tag_id :=
              (get_person_current_tags env.get_all_tags
                (lastColonComponent pid)).type.bind TagEntry.tag_id
            membership_status :=
              (extract_connection_membership_info tgs).status_value.getD ""
            membership_type :=
              (extract_connection_membership_info tgs).type_value.getD ""
            inactive :=
              decide ((extract_connection_membership_info tgs).status_value ≠
                some "Active") }
      else none) :=
  process_person_resolved env fuel person pid ids pd c cs tgs
    hid hpid hpd hconn htgs

theorem C5_missing_ids_do_not_suppress_witness :
    ((extract_connection_membership_info wUnitTagsC5).type_value =
        some "Non-Member" ∧
      (extract_connection_membership_info wUnitTagsC5).status_id = none) ∧
    (process_person wEnvC5 1 wPerson).isSome := by
  refine ⟨⟨by decide, by decide⟩, ?_⟩
  have h := C5_missing_ids_do_not_suppress wEnvC5 1 wPerson
    "actionbuilder:person:123" [] wPersonData wConn [] wUnitTagsC5
    (by decide) (by decide) (by decide) (by decide) (by decide)
    (Or.inl ⟨by decide, by decide⟩)
  rw [h]
  decide

lemma foldl_currentTagsStep_status_none (tags : List Tagging) :
    ∀ acc : CurrentTags, acc.status = none →
      (∀ t ∈ tags, t.field ≠ some "Membership Status") →
      (tags.foldl currentTagsStep acc).status = none := by
  induction tags with
  | nil => intro acc hacc _; simpa using hacc
  | cons t ts ih =>
    intro acc hacc hmem
    have ht : t.field ≠ some "Membership Status" := hmem t (List.mem_cons_self t ts)
    have hstep : (currentTagsStep acc t).status = none := by
      by_cases hty : t.field = some "Membership Type" <;>
        simp [currentTagsStep, ht, hty, hacc]
    exact ih (currentTagsStep acc t) hstep
      (fun u hu => hmem u (List.mem_cons_of_mem t hu))

lemma foldl_connInfoStep_status_value_none (tags : List Tagging) :
    ∀ acc : ConnMembershipInfo, acc.status_value = none →
      (∀ t ∈ tags, t.field ≠ some "Membership Status") →
      (tags.foldl connInfoStep acc).status_value = none := by
  induction tags with
  | nil => intro acc hacc _; simpa using hacc
  | cons t ts ih =>
    intro acc hacc hmem
    have ht : t.field ≠ some "Membership Status" := hmem t (List.mem_cons_self t ts)
    have hstep : (connInfoStep acc t).status_value = none := by
      by_cases hty : t.field = some "Membership Type" <;>
        simp [connInfoStep, ht, hty, hacc]
    exact ih (connInfoStep acc t) hstep
      (fun u hu => hmem u (List.mem_cons_of_mem t hu))

/-- C10: a person-side field with no tagging at all reads as the absent
value, a tagging present for the status field but with a null name is
recorded with the empty-string name, and a record that is nameless on the
person side while absent on the unit side is treated as a discrepancy and
yields a PersonUnitInfo. -/
theorem C10_nameless_vs_absent_is_discrepancy :
    (∀ (ga : String → List Tagging) (pid : String),
      (∀ t ∈ ga pid, t.field ≠ some "Membership Status") →
      (get_person_current_tags ga pid).status = none) ∧
    (∀ (ga : String → List Tagging) (pid : String) (ts : List Tagging)
        (t : Tagging),
      ga pid = ts ++ [t] → t.field = some "Membership Status" → t.name = none →
      (get_person_current_tags ga pid).status = some ⟨tagIdOf t, ""⟩) ∧
    (∀ (env : Env) (fuel : Nat) (person : PersonStub) (pid : String)
        (ids : List String) (pd : PersonData) (c : Conn) (cs : List Conn)
        (tgs : List Tagging),
      person.identifiers = some (pid :: ids) →
      pid.isEmpty = false →
      env.get_person (lastColonComponent pid) = some pd →
      fetch_connections_from_person env.getConnPage fuel pd = c :: cs →
      fetch_taggings_from_connection env.getTagPage fuel (c :: cs) = some tgs →
      (∀ t ∈ tgs, t.field ≠ some "Membership Status") →
      (get_person_current_tags env.get_all_tags
          (lastColonComponent pid)).status.map TagEntry.tag_name = some "" →
      (process_person env fuel person).isSome) := by
  refine ⟨?_, ?_, ?_⟩
  · intro ga pid hmem
    exact foldl_currentTagsStep_status_none (ga pid) ⟨none, none⟩ rfl hmem
  · intro ga pid ts t hga hf hn
    unfold get_person_current_tags
    rw [hga, List.foldl_append]
    simp [currentTagsStep, hf, hn]
  · intro env fuel person pid ids pd c cs tgs hid hpid hpd hconn htgs hnos hname
    have h := process_person_resolved env fuel person pid ids pd c cs tgs
      hid hpid hpd hconn htgs
    have hsv : (extract_connection_membership_info tgs).status_value = none :=
      foldl_connInfoStep_status_value_none tgs ⟨none, none, none, none⟩ rfl hnos
    rw [h, if_pos]
    · rfl
    · left
      rw [hsv, hname]
      exact fun hcontra => Option.noConfusion hcontra

theorem C10_nameless_vs_absent_is_discrepancy_witness :
    (get_person_current_tags (fun _ => wUnitTagsC10) "x").status = none ∧
    (get_person_current_tags wEnvC10.get_all_tags "123").status =
      some ⟨some "pS", ""⟩ ∧
    (process_person wEnvC10 1 wPerson).isSome := by
  refine ⟨?_, ?_, ?_⟩
  · exact C10_nameless_vs_absent_is_discrepancy.1 (fun _ => wUnitTagsC10) "x"
      (by decide)
  · have h := C10_nameless_vs_absent_is_discrepancy.2.1 wEnvC10.get_all_tags
      "123" [⟨some "Membership Type", some "Member", ["tag:t:pT"]⟩]
      ⟨some "Membership Status", none, ["tag:s:pS"]⟩ (by decide) (by decide)
      (by decide)
    rw [h]
    decide
  · exact C10_nameless_vs_absent_is_discrepancy.2.2 wEnvC10 1 wPerson
      "actionbuilder:person:123" [] wPersonData wConn [] wUnitTagsC10
      (by decide) (by decide) (by decide) (by decide) (by decide) (by decide)
      (by decide)

lemma paginateAux_until_empty (f : Nat → Option (NumPage α)) (N : Nat)
    (hpre : ∀ k, 1 ≤ k → k < N → ∃ pg tp, f k = some pg ∧ pg.items ≠ [] ∧
      pg.total_pages = some tp ∧ (k : Int) < tp)
    (hN : ∃ pgN, f N = some pgN ∧ pgN.items = []) :
    ∀ fuel start : Nat, 1 ≤ start → start ≤ N → N - start < fuel →
      paginateAux f fuel start =
        ((List.range' start (N - start)).map (fun k => pageItems (f k))).join := by
  intro fuel
  induction fuel with
  | zero => intro start h1 h2 h3; omega
  | succ fuel ih =>
    intro start h1 h2 h3
    rcases Nat.lt_or_ge start N with hlt | hge
    · obtain ⟨pg, tp, hf, hne, htp, hklt⟩ := hpre start h1 hlt
      have hitems : pg.items.isEmpty = false := by
        simpa [List.isEmpty_iff] using hne
      have hnotge : ¬ ((start : Int) ≥ tp) := by omega
      have hrange : List.range' start (N - start) =
          start :: List.range' (start + 1) (N - start - 1) := by
        conv_lhs => rw [show N - start = (N - start - 1) + 1 by omega]
        rw [List.range'_succ]
      have hstep : paginateAux f (fuel + 1) start =
          pg.items ++ paginateAux f fuel (start + 1) := by
        simp [paginateAux, hf, hitems, htp, hnotge]
      rw [hstep, ih (start + 1) (by omega) (by omega) (by omega), hrange,
        show N - (start + 1) = N - start - 1 by omega]
      simp [pageItems, hf]
    · have heq : start = N := by omega
      subst heq
      obtain ⟨pgN, hfN, hempty⟩ := hN
      have hitems : pgN.items.isEmpty = true := by simp [hempty]
      simp [paginateAux, hfN, hitems, Nat.sub_self]

lemma paginateAux_until_total (f : Nat → Option (NumPage α)) (M : Nat)
    (hpre : ∀ k, 1 ≤ k → k < M → ∃ pg tp, f k = some pg ∧ pg.items ≠ [] ∧
      pg.total_pages = some tp ∧ (k : Int) < tp)
    (hM : ∃ pgM tpM, f M = some pgM ∧ pgM.items ≠ [] ∧
      pgM.total_pages = some tpM ∧ tpM ≤ (M : Int)) :
    ∀ fuel start : Nat, 1 ≤ start → start ≤ M → M - start < fuel →
      paginateAux f fuel start =
        ((List.range' start (M - start + 1)).map (fun k => pageItems (f k))).join := by
  intro fuel
  induction fuel with
  | zero => intro start h1 h2 h3; omega
  | succ fuel ih =>
    intro start h1 h2 h3
    rcases Nat.lt_or_ge start M with hlt | hge
    · obtain ⟨pg, tp, hf, hne, htp, hklt⟩ := hpre start h1 hlt
      have hitems : pg.items.isEmpty = false := by
        simpa [List.isEmpty_iff] using hne
      have hnotge : ¬ ((start : Int) ≥ tp) := by omega
      have hrange : List.range' start (M - start + 1) =
          start :: List.range' (start + 1) (M - start) := List.range'_succ ..
      have hstep : paginateAux f (fuel + 1) start =
          pg.items ++ paginateAux f fuel (start + 1) := by
        simp [paginateAux, hf, hitems, htp, hnotge]
      have hms : M - (start + 1) + 1 = M - start := by omega
      rw [hstep, ih (start + 1) (by omega) (by omega) (by omega), hms, hrange]
      simp [pageItems, hf]
    · have heq : start = M := by omega
      subst heq
      obtain ⟨pgM, tpM, hfM, hne, htp, htple⟩ := hM
      have hitems : pgM.items.isEmpty = false := by
        simpa [List.isEmpty_iff] using hne
      have hge2 : (start : Int) ≥ tpM := htple
      simp [paginateAux, hfM, hitems, htp, hge2, Nat.sub_self, pageItems]

/-- C7 (corrected): the empty-page rule does not hold "regardless of
total_pages". Against `cexPages` — whose first empty page is page 3 — the
fetcher stops after page 1 (page 1 claims `total_pages = 1`), so it yields
only page 1's items instead of the concatenation of pages 1 and 2. -/
theorem C7_cex_total_pages_stops_before_empty_page :
    cexPages 3 = some ⟨[], some 5⟩ ∧
    (∀ k, 1 ≤ k → k < 3 → pageItems (cexPages k) ≠ []) ∧
    search_people_modified_by cexPages 10 = [⟨some ["ab:person:p1"]⟩] ∧
    search_people_modified_by cexPages 10 ≠
      pageItems (cexPages 1) ++ pageItems (cexPages 2) := by
  refine ⟨by decide, ?_, by decide, by decide⟩
  intro k h1 h2
  interval_cases k <;> decide

/-- C7 (amended): if every page before the first empty page N is non-empty
and reports a `total_pages` still ahead of it (so that the loop does not
stop early), then both paginated fetchers yield exactly the concatenation
of the items of pages 1..N-1, regardless of page N's `total_pages`; when no
page is empty, fetching stops once the current page number reaches the
reported `total_pages` (yielding pages 1..M), and stops immediately after
page 1 when `total_pages` is absent. -/
theorem C7_pagination_termination :
    (∀ (f : Nat → Option (NumPage PersonStub)) (N fuel : Nat),
      1 ≤ N → N ≤ fuel →
      (∀ k, 1 ≤ k → k < N → ∃ pg tp, f k = some pg ∧ pg.items ≠ [] ∧
        pg.total_pages = some tp ∧ (k : Int) < tp) →
      (∃ pgN, f N = some pgN ∧ pgN.items = []) →
      search_people_modified_by f fuel =
        ((List.range' 1 (N - 1)).map (fun k => pageItems (f k))).join) ∧
    (∀ (f : Nat → Option (NumPage Tagging)) (N fuel : Nat),
      1 ≤ N → N ≤ fuel →
      (∀ k, 1 ≤ k → k < N → ∃ pg tp, f k = some pg ∧ pg.items ≠ [] ∧
        pg.total_pages = some tp ∧ (k : Int) < tp) →
      (∃ pgN, f N = some pgN ∧ pgN.items = []) →
      get_tags_paginated f fuel =
        ((List.range' 1 (N - 1)).map (fun k => pageItems (f k))).join) ∧
    (∀ (f : Nat → Option (NumPage PersonStub)) (M fuel : Nat),
      1 ≤ M → M ≤ fuel →
      (∀ k, 1 ≤ k → k < M → ∃ pg tp, f k = some pg ∧ pg.items ≠ [] ∧
        pg.total_pages = some tp ∧ (k : Int) < tp) →
      (∃ pgM tpM, f M = some pgM ∧ pgM.items ≠ [] ∧
        pgM.total_pages = some tpM ∧ tpM ≤ (M : Int)) →
      search_people_modified_by f fuel =
        ((List.range' 1 M).map (fun k => pageItems (f k))).join) ∧
    (∀ (f : Nat → Option (NumPage Tagging)) (M fuel : Nat),
      1 ≤ M → M ≤ fuel →
      (∀ k, 1 ≤ k → k < M → ∃ pg tp, f k = some pg ∧ pg.items ≠ [] ∧
        pg.total_pages = some tp ∧ (k : Int) < tp) →
      (∃ pgM tpM, f M = some pgM ∧ pgM.items ≠ [] ∧
        pgM.total_pages = some tpM ∧ tpM ≤ (M : Int)) →
      get_tags_paginated f fuel =
        ((List.range' 1 M).map (fun k => pageItems (f k))).join) ∧
    (∀ (f : Nat → Option (NumPage PersonStub)) (fuel : Nat) (pg1 : NumPage PersonStub),
      1 ≤ fuel → f 1 = some pg1 → pg1.items ≠ [] → pg1.total_pages = none →
      search_people_modified_by f fuel = pg1.items) ∧
    (∀ (f : Nat → Option (NumPage Tagging)) (fuel : Nat) (pg1 : NumPage Tagging),
      1 ≤ fuel → f 1 = some pg1 → pg1.items ≠ [] → pg1.total_pages = none →
      get_tags_paginated f fuel = pg1.items) := by
  refine ⟨?_, ?_, ?_, ?_, ?_, ?_⟩
  · intro f N fuel hN hfuel hpre hempty
    exact paginateAux_until_empty f N hpre hempty fuel 1 le_rfl hN (by omega)
  · intro f N fuel hN hfuel hpre hempty
    exact paginateAux_until_empty f N hpre hempty fuel 1 le_rfl hN (by omega)
  · intro f M fuel hM hfuel hpre hlast
    have h := paginateAux_until_total f M hpre hlast fuel 1 le_rfl hM (by omega)
    rwa [show M - 1 + 1 = M by omega] at h
  · intro f M fuel hM hfuel hpre hlast
    have h := paginateAux_until_total f M hpre hlast fuel 1 le_rfl hM (by omega)
    rwa [show M - 1 + 1 = M by omega] at h
  · intro f fuel pg1 hfuel hf1 hne htp
    obtain ⟨fuel', rfl⟩ : ∃ fuel', fuel = fuel' + 1 :=
      ⟨fuel - 1, by omega⟩
    have hitems : pg1.items.isEmpty = false := by
      simpa [List.isEmpty_iff] using hne
    simp [search_people_modified_by, paginateAux, hf1, hitems, htp]
  · intro f fuel pg1 hfuel hf1 hne htp
    obtain ⟨fuel', rfl⟩ : ∃ fuel', fuel = fuel' + 1 :=
      ⟨fuel - 1, by omega⟩
    have hitems : pg1.items.isEmpty = false := by
      simpa [List.isEmpty_iff] using hne
    simp [get_tags_paginated, paginateAux, hf1, hitems, htp]

theorem C7_pagination_termination_witness :
    search_people_modified_by wPagesC7 10 =
      [⟨some ["a:1"]⟩, ⟨some ["a:2"]⟩] ∧
    get_tags_paginated wTagPagesC7 10 = [cexTagA, cexTagB] := by
  constructor
  · have h := C7_pagination_termination.1 wPagesC7 3 10 (by omega) (by omega)
      (by intro k h1 h2; interval_cases k
          · exact ⟨⟨[⟨some ["a:1"]⟩], some 3⟩, 3, rfl, by decide, rfl, by decide⟩
          · exact ⟨⟨[⟨some ["a:2"]⟩], some 3⟩, 3, rfl, by decide, rfl, by decide⟩)
      ⟨⟨[], some 3⟩, rfl, rfl⟩
    rw [h]
    decide
  · have h := C7_pagination_termination.2.2.2.1 wTagPagesC7 2 10 (by omega) (by omega)
      (by intro k h1 h2; interval_cases k
          exact ⟨⟨[cexTagA], some 2⟩, 2, rfl, by decide, rfl, by decide⟩)
      ⟨⟨[cexTagB], some 2⟩, 2, rfl, by decide, rfl, by decide⟩
    rw [h]
    decide

lemma retryAux_all_fail (op : Nat → Except PyExc PyVal) (isConf : PyExc → Bool)
    (rif : Bool) (backoff maxA : Nat) :
    ∀ remaining attempt : Nat, 1 ≤ attempt → attempt ≤ maxA →
      attempt + remaining = maxA + 1 →
      (∀ i, attempt ≤ i → i < maxA → retryFailsAt op isConf rif i = true) →
      retryAux op isConf rif backoff maxA attempt remaining =
        (op maxA,
          (List.range' attempt (maxA - attempt)).map
            (fun i => backoff * 2 ^ (i - 1)),
          maxA - attempt + 1) := by
  intro remaining
  induction remaining with
  | zero => intro attempt h1 h2 h3 _; omega
  | succ remaining ih =>
    intro attempt h1 h2 h3 hfail
    rcases Nat.lt_or_ge attempt maxA with hlt | hge
    · have hne : ¬ (attempt = maxA) := by omega
      have hthis := hfail attempt le_rfl hlt
      have hrest := ih (attempt + 1) (by omega) (by omega) (by omega)
        (fun i hi1 hi2 => hfail i (by omega) hi2)
      rw [show maxA - (attempt + 1) + 1 = maxA - attempt from by omega] at hrest
      have hrange : List.range' attempt (maxA - attempt) =
          attempt :: List.range' (attempt + 1) (maxA - (attempt + 1)) := by
        conv_lhs => rw [show maxA - attempt = (maxA - (attempt + 1)) + 1 by omega]
        rw [List.range'_succ]
      cases hop : op attempt with
      | ok v =>
        have hfv : (rif && pyFalsyRF v) = true := by
          simpa [retryFailsAt, hop] using hthis
        simp [retryAux, hop, hfv, hne, hrest, hrange]
      | error e =>
        have hfv : retryCatches isConf rif e = true := by
          simpa [retryFailsAt, hop] using hthis
        simp [retryAux, hop, hfv, hne, hrest, hrange]
    · have heq : attempt = maxA := by omega
      subst heq
      have hz : attempt - attempt = 0 := by omega
      cases hop : op attempt with
      | ok v =>
        by_cases hfv : (rif && pyFalsyRF v) = true <;>
          simp [retryAux, hop, hfv, hz]
      | error e =>
        by_cases hfv : retryCatches isConf rif e = true <;>
          simp [retryAux, hop, hfv, hz]

lemma retryAux_success_at (op : Nat → Except PyExc PyVal) (isConf : PyExc → Bool)
    (rif : Bool) (backoff maxA : Nat) :
    ∀ remaining attempt k : Nat, 1 ≤ attempt → attempt ≤ k → k ≤ maxA →
      attempt + remaining = maxA + 1 →
      (∀ i, attempt ≤ i → i < k → retryFailsAt op isConf rif i = true) →
      retryFailsAt op isConf rif k = false →
      retryAux op isConf rif backoff maxA attempt remaining =
        (op k,
          (List.range' attempt (k - attempt)).map
            (fun i => backoff * 2 ^ (i - 1)),
          k - attempt + 1) := by
  intro remaining
  induction remaining with
  | zero => intro attempt k h1 h2 h3 h4 _ _; omega
  | succ remaining ih =>
    intro attempt k h1 h2 h3 h4 hfail hok
    rcases Nat.lt_or_ge attempt k with hlt | hge
    · have hne : ¬ (attempt = maxA) := by omega
      have hthis := hfail attempt le_rfl hlt
      have hrest := ih (attempt + 1) k (by omega) (by omega) h3 (by omega)
        (fun i hi1 hi2 => hfail i (by omega) hi2) hok
      rw [show k - (attempt + 1) + 1 = k - attempt from by omega] at hrest
      have hrange : List.range' attempt (k - attempt) =
          attempt :: List.range' (attempt + 1) (k - (attempt + 1)) := by
        conv_lhs => rw [show k - attempt = (k - (attempt + 1)) + 1 by omega]
        rw [List.range'_succ]
      cases hop : op attempt with
      | ok v =>
        have hfv : (rif && pyFalsyRF v) = true := by
          simpa [retryFailsAt, hop] using hthis
        simp [retryAux, hop, hfv, hne, hrest, hrange]
      | error e =>
        have hfv : retryCatches isConf rif e = true := by
          simpa [retryFailsAt, hop] using hthis
        simp [retryAux, hop, hfv, hne, hrest, hrange]
    · have heq : attempt = k := by omega
      subst heq
      have hz : attempt - attempt = 0 := by omega
      cases hop : op attempt with
      | ok v =>
        have hfv : (rif && pyFalsyRF v) = false := by
          simpa [retryFailsAt, hop] using hok
        simp [retryAux, hop, hfv, hz]
      | error e =>
        have hfv : retryCatches isConf rif e = false := by
          simpa [retryFailsAt, hop] using hok
        simp [retryAux, hop, hfv, hz]

/-- C8: a wrapped operation that fails retryably on every attempt is
invoked exactly `max_attempts` times with sleeps of
`backoff * 2 ^ (attempt - 1)` between consecutive attempts, after which the
final attempt's own outcome is propagated (its raised error, or in
falsy-retry mode its falsy result); an operation that succeeds at some
attempt `k` after retryable failures has that result returned immediately,
with exactly `k` invocations and no further ones. -/
theorem C8_retry_ceiling_and_immediate_success :
    (∀ (op : Nat → Except PyExc PyVal) (isConf : PyExc → Bool) (rif : Bool)
        (backoff maxA : Nat), 1 ≤ maxA →
      (∀ i, 1 ≤ i → i ≤ maxA → retryFailsAt op isConf rif i = true) →
      retry_request maxA backoff isConf rif op =
        (op maxA,
          (List.range' 1 (maxA - 1)).map (fun i => backoff * 2 ^ (i - 1)),
          maxA)) ∧
    (∀ (op : Nat → Except PyExc PyVal) (isConf : PyExc → Bool) (rif : Bool)
        (backoff maxA k : Nat) (v : PyVal), 1 ≤ k → k ≤ maxA →
      (∀ i, 1 ≤ i → i < k → retryFailsAt op isConf rif i = true) →
      op k = Except.ok v → (rif && pyFalsyRF v) = false →
      retry_request maxA backoff isConf rif op =
        (Except.ok v,
          (List.range' 1 (k - 1)).map (fun i => backoff * 2 ^ (i - 1)),
          k)) := by
  constructor
  · intro op isConf rif backoff maxA hmax hfail
    have h := retryAux_all_fail op isConf rif backoff maxA maxA 1 le_rfl hmax
      (by omega) (fun i hi1 hi2 => hfail i hi1 (by omega))
    have hc : maxA - 1 + 1 = maxA := by omega
    rw [retry_request, h, hc]
  · intro op isConf rif backoff maxA k v hk hkmax hfail hok hnf
    have hks : retryFailsAt op isConf rif k = false := by
      simp [retryFailsAt, hok, hnf]
    have h := retryAux_success_at op isConf rif backoff maxA maxA 1 k le_rfl hk
      hkmax (by omega) (fun i hi1 hi2 => hfail i hi1 hi2) hks
    have hc : k - 1 + 1 = k := by omega
    rw [retry_request, h, hok, hc]

theorem C8_retry_ceiling_and_immediate_success_witness :
    retry_request 3 2 defaultConf false
        (fun _ => Except.error (PyExc.requestException 500)) =
      (Except.error (PyExc.requestException 500), [2, 4], 3) ∧
    retry_request 3 2 defaultConf false
        (fun _ => Except.ok (PyVal.pyBool true)) =
      (Except.ok (PyVal.pyBool true), [], 1) := by
  constructor
  · have h := C8_retry_ceiling_and_immediate_success.1
      (fun _ => Except.error (PyExc.requestException 500)) defaultConf false 2 3
      (by omega) (fun i h1 h2 => rfl)
    rw [h]
    rfl
  · have h := C8_retry_ceiling_and_immediate_success.2
      (fun _ => Except.ok (PyVal.pyBool true)) defaultConf false 2 3 1
      (PyVal.pyBool true) (by omega) (by omega)
      (fun i h1 h2 => absurd (Nat.lt_of_lt_of_le h2 h1) (by omega)) rfl rfl
    rw [h]
    rfl

/-- C9: a `ValueError` raised by the wrapped operation itself is caught and
retried with backoff when `retry_if_false=True` — even when `ValueError` is
not among the configured retryable exception types — and on the final
attempt it propagates; with `retry_if_false=False` such a `ValueError` is
never retried: it propagates from the first attempt after a single
invocation with no sleeps. -/
theorem C9_valueerror_retryable_only_in_falsy_mode :
    (∀ (op : Nat → Except PyExc PyVal) (isConf : PyExc → Bool)
        (backoff maxA : Nat), 1 ≤ maxA →
      isConf PyExc.valueError = false →
      (∀ i, 1 ≤ i → i ≤ maxA → op i = Except.error PyExc.valueError) →
      retry_request maxA backoff isConf true op =
        (Except.error PyExc.valueError,
          (List.range' 1 (maxA - 1)).map (fun i => backoff * 2 ^ (i - 1)),
          maxA)) ∧
    (∀ (op : Nat → Except PyExc PyVal) (isConf : PyExc → Bool)
        (backoff maxA : Nat), 1 ≤ maxA →
      isConf PyExc.valueError = false →
      op 1 = Except.error PyExc.valueError →
      retry_request maxA backoff isConf false op =
        (Except.error PyExc.valueError, [], 1)) := by
  constructor
  · intro op isConf backoff maxA hmax hconf hve
    have hfail : ∀ i, 1 ≤ i → i ≤ maxA →
        retryFailsAt op isConf true i = true := by
      intro i hi1 hi2
      simp [retryFailsAt, hve i hi1 hi2, retryCatches]
    have h := retryAux_all_fail op isConf true backoff maxA maxA 1 le_rfl hmax
      (by omega) (fun i hi1 hi2 => hfail i hi1 (by omega))
    have hc : maxA - 1 + 1 = maxA := by omega
    rw [retry_request, h, hc, hve maxA hmax le_rfl]
  · intro op isConf backoff maxA hmax hconf hve
    have hks : retryFailsAt op isConf false 1 = false := by
      simp [retryFailsAt, hve, retryCatches, hconf]
    have h := retryAux_success_at op isConf false backoff maxA maxA 1 1 le_rfl
      le_rfl hmax (by omega) (fun i hi1 hi2 => absurd hi2 (by omega)) hks
    rw [retry_request, h, hve]
    rfl

theorem C9_valueerror_retryable_only_in_falsy_mode_witness :
    retry_request 3 1 defaultConf true
        (fun _ => Except.error PyExc.valueError) =
      (Except.error PyExc.valueError, [1, 2], 3) ∧
    retry_request 3 1 defaultConf false
        (fun _ => Except.error PyExc.valueError) =
      (Except.error PyExc.valueError, [], 1) := by
  constructor
  · have h := C9_valueerror_retryable_only_in_falsy_mode.1
      (fun _ => Except.error PyExc.valueError) defaultConf 1 3 (by omega) rfl
      (fun i h1 h2 => rfl)
    rw [h]
    rfl
  · exact C9_valueerror_retryable_only_in_falsy_mode.2
      (fun _ => Except.error PyExc.valueError) defaultConf 1 3 (by omega) rfl rfl

lemma delete_once_error (s : Nat) (h400 : 400 ≤ s) (h600 : s < 600)
    (h404 : s ≠ 404) :
    delete_tagging_once s = Except.error (PyExc.requestException s) := by
  have h1 : ¬ (s = 200 ∨ s = 204) := by omega
  have h3 : 400 ≤ s ∧ s < 600 := ⟨h400, h600⟩
  simp [delete_tagging_once, h1, h404, h3]

lemma delete_dichotomy (statuses : Nat → Nat) (i : Nat) :
    ((400 ≤ statuses i ∧ statuses i < 600 ∧ statuses i ≠ 404) ∧
      retryFailsAt (fun j => delete_tagging_once (statuses j))
        defaultConf false i = true) ∨
    (¬ (400 ≤ statuses i ∧ statuses i < 600 ∧ statuses i ≠ 404) ∧
      retryFailsAt (fun j => delete_tagging_once (statuses j))
        defaultConf false i = false ∧
      ∃ v, delete_tagging_once (statuses i) = Except.ok v) := by
  by_cases h1 : statuses i = 200 ∨ statuses i = 204
  · right
    refine ⟨by omega, ?_, PyVal.pyBool true, ?_⟩ <;>
      simp [retryFailsAt, delete_tagging_once, h1]
  · by_cases h2 : statuses i = 404
    · right
      refine ⟨by omega, ?_, PyVal.pyBool false, ?_⟩ <;>
        simp [retryFailsAt, delete_tagging_once, h1, h2]
    · by_cases h3 : 400 ≤ statuses i ∧ statuses i < 600
      · left
        refine ⟨⟨h3.1, h3.2, h2⟩, ?_⟩
        simp [retryFailsAt, delete_tagging_once, h1, h2, h3, retryCatches,
          defaultConf]
      · right
        refine ⟨by omega, ?_, PyVal.pyNone, ?_⟩ <;>
          simp [retryFailsAt, delete_tagging_once, h1, h2, h3]

lemma retryAux_calls_pos (op : Nat → Except PyExc PyVal) (isConf : PyExc → Bool)
    (rif : Bool) (backoff maxA attempt remaining : Nat) (h : 1 ≤ remaining) :
    1 ≤ (retryAux op isConf rif backoff maxA attempt remaining).2.2 := by
  obtain ⟨r, rfl⟩ : ∃ r, remaining = r + 1 := ⟨remaining - 1, by omega⟩
  cases hop : op attempt with
  | ok v =>
    simp only [retryAux, hop]
    split_ifs <;> simp
  | error e =>
    simp only [retryAux, hop]
    split_ifs <;> simp

lemma retryAux_step_fail (op : Nat → Except PyExc PyVal) (isConf : PyExc → Bool)
    (rif : Bool) (backoff maxA attempt r : Nat)
    (hfail : retryFailsAt op isConf rif attempt = true) (hne : attempt ≠ maxA) :
    retryAux op isConf rif backoff maxA attempt (r + 1) =
      ((retryAux op isConf rif backoff maxA (attempt + 1) r).1,
        backoff * 2 ^ (attempt - 1) ::
          (retryAux op isConf rif backoff maxA (attempt + 1) r).2.1,
        (retryAux op isConf rif backoff maxA (attempt + 1) r).2.2 + 1) := by
  cases hop : op attempt with
  | ok v =>
    have hfv : (rif && pyFalsyRF v) = true := by
      simpa [retryFailsAt, hop] using hfail
    simp [retryAux, hop, hfv, hne]
  | error e =>
    have hfv : retryCatches isConf rif e = true := by
      simpa [retryFailsAt, hop] using hfail
    simp [retryAux, hop, hfv, hne]

lemma delete_success_of_ok_at (statuses : Nat → Nat) (k : Nat) (hk : 1 ≤ k)
    (hkm : k ≤ 3)
    (hfail : ∀ i, 1 ≤ i → i < k →
      retryFailsAt (fun j => delete_tagging_once (statuses j))
        defaultConf false i = true)
    (hks : retryFailsAt (fun j => delete_tagging_once (statuses j))
      defaultConf false k = false) :
    delete_tag_for_person statuses = true ∧
      (delete_tagging statuses).2.2 = k := by
  have hr := retryAux_success_at (fun j => delete_tagging_once (statuses j))
    defaultConf false 1 3 3 1 k le_rfl hk hkm (by omega) hfail hks
  have hone : k - 1 + 1 = k := by omega
  rcases delete_dichotomy statuses k with ⟨_, hf⟩ | ⟨_, _, v, hv⟩
  · rw [hks] at hf
    cases hf
  · constructor
    · unfold delete_tag_for_person delete_tagging retry_request
      rw [hr, hone]
      simp [hv]
    · unfold delete_tagging retry_request
      rw [hr, hone]

/-- C3: a deletion whose first response is 200, 204 or 404 is an immediate
success of `delete_tag_for_person` with a single remote call (404 is
already-absent, not an error); a retry happens only when the response
status is an HTTP error status (400–599) other than 404; any such status
triggers a retry; and a deletion counts as failed only when all three
attempts answered with such statuses, the retries thereby exhausted. -/
theorem C3_delete_404_is_success_other_errors_retry :
    (∀ statuses : Nat → Nat,
      statuses 1 = 200 ∨ statuses 1 = 204 ∨ statuses 1 = 404 →
      delete_tag_for_person statuses = true ∧
        (delete_tagging statuses).2.2 = 1) ∧
    (∀ statuses : Nat → Nat, delete_tag_for_person statuses = false →
      (∀ i, 1 ≤ i → i ≤ 3 →
        400 ≤ statuses i ∧ statuses i < 600 ∧ statuses i ≠ 404) ∧
        (delete_tagging statuses).2.2 = 3) ∧
    (∀ statuses : Nat → Nat, 2 ≤ (delete_tagging statuses).2.2 →
      400 ≤ statuses 1 ∧ statuses 1 < 600 ∧ statuses 1 ≠ 404) ∧
    (∀ statuses : Nat → Nat, 400 ≤ statuses 1 → statuses 1 < 600 →
      statuses 1 ≠ 404 → 2 ≤ (delete_tagging statuses).2.2) := by
  refine ⟨?_, ?_, ?_, ?_⟩
  · intro statuses h
    have hnot : ¬ (400 ≤ statuses 1 ∧ statuses 1 < 600 ∧ statuses 1 ≠ 404) := by
      omega
    rcases delete_dichotomy statuses 1 with ⟨hc, _⟩ | ⟨_, hks, _⟩
    · exact absurd hc hnot
    · exact delete_success_of_ok_at statuses 1 le_rfl (by omega)
        (fun i h1 h2 => absurd h2 (by omega)) hks
  · intro statuses hfalse
    have hall : ∀ i, 1 ≤ i → i ≤ 3 →
        retryFailsAt (fun j => delete_tagging_once (statuses j))
          defaultConf false i = true := by
      rcases delete_dichotomy statuses 1 with ⟨_, f1⟩ | ⟨_, k1, _⟩
      · rcases delete_dichotomy statuses 2 with ⟨_, f2⟩ | ⟨_, k2, _⟩
        · rcases delete_dichotomy statuses 3 with ⟨_, f3⟩ | ⟨_, k3, _⟩
          · intro i h1 h2
            interval_cases i <;> assumption
          · exfalso
            have hs := delete_success_of_ok_at statuses 3 (by omega) le_rfl
              (fun i h1 h2 => by interval_cases i <;> assumption) k3
            rw [hs.1] at hfalse
            cases hfalse
        · exfalso
          have hs := delete_success_of_ok_at statuses 2 (by omega) (by omega)
            (fun i h1 h2 => by interval_cases i; exact f1) k2
          rw [hs.1] at hfalse
          cases hfalse
      · exfalso
        have hs := delete_success_of_ok_at statuses 1 le_rfl (by omega)
          (fun i h1 h2 => absurd h2 (by omega)) k1
        rw [hs.1] at hfalse
        cases hfalse
    constructor
    · intro i h1 h2
      rcases delete_dichotomy statuses i with ⟨hc, _⟩ | ⟨_, hks, _⟩
      · exact hc
      · rw [hall i h1 h2] at hks
        cases hks
    · have hr := retryAux_all_fail (fun j => delete_tagging_once (statuses j))
        defaultConf false 1 3 3 1 le_rfl (by omega) (by omega)
        (fun i h1 h2 => hall i h1 (by omega))
      unfold delete_tagging retry_request
      rw [hr]
  · intro statuses h2le
    rcases delete_dichotomy statuses 1 with ⟨hc, _⟩ | ⟨_, hks, _⟩
    · exact hc
    · exfalso
      have hs := delete_success_of_ok_at statuses 1 le_rfl (by omega)
        (fun i h1 h2 => absurd h2 (by omega)) hks
      rw [hs.2] at h2le
      omega
  · intro statuses h400 h600 h404
    rcases delete_dichotomy statuses 1 with ⟨_, f1⟩ | ⟨hn, _, _⟩
    · have hpos := retryAux_calls_pos
        (fun j => delete_tagging_once (statuses j)) defaultConf false 1 3 2 2
        (by omega)
      have h3eq : retryAux (fun j => delete_tagging_once (statuses j))
          defaultConf false 1 3 1 3 =
          retryAux (fun j => delete_tagging_once (statuses j))
            defaultConf false 1 3 1 (2 + 1) := rfl
      have hstep := retryAux_step_fail
        (fun j => delete_tagging_once (statuses j)) defaultConf false 1 3 1 2
        f1 (by omega)
      unfold delete_tagging retry_request
      rw [h3eq, hstep]
      simpa using hpos
    · exact absurd ⟨h400, h600, h404⟩ hn

theorem C3_delete_404_is_success_other_errors_retry_witness :
    delete_tag_for_person (fun _ => 404) = true ∧
    (delete_tagging (fun _ => 404)).2.2 = 1 ∧
    delete_tag_for_person (fun _ => 500) = false ∧
    (400 ≤ 500 ∧ 500 < 600 ∧ 500 ≠ 404) ∧
    (delete_tagging (fun _ => 500)).2.2 = 3 ∧
    2 ≤ (delete_tagging (fun _ => 500)).2.2 := by
  have h404 := C3_delete_404_is_success_other_errors_retry.1 (fun _ => 404)
    (by decide)
  have h500 := C3_delete_404_is_success_other_errors_retry.2.1 (fun _ => 500)
    (by decide)
  have hretry := C3_delete_404_is_success_other_errors_retry.2.2.2
    (fun _ => 500) (by decide) (by decide) (by decide)
  exact ⟨h404.1, h404.2, by decide, ⟨by omega, by omega, by omega⟩, h500.2,
    hretry⟩
